import Mathlib

/-!
Shallow embedding of `extensions_built_in/advanced_generator/Img2ImgGenerator.py`.

The file models, over exact rationals and explicit event traces:
  - `GenerateConfig` and the top-level process configuration;
  - dataset preprocessing in `Img2ImgGenerator.__init__` (the partition into
    `datasets` and `datasets_reg`);
  - `Img2ImgGenerator.to_pil` (tensor to 8-bit RGB image conversion);
  - `Img2ImgGenerator.run`, rendered as a pure function from the configuration,
    an abstract pipeline function and the list of data-loader batches to the
    list of externally visible events (model load, pipeline assembly, raised
    errors, pipeline invocations, directory creations, file writes).
Python floats are embedded as rationals; machine-byte casts carry an explicit
`% 256`.
-/

namespace Img2Img

/-! ### Tensors and images -/

/-- Tensor in batch/channel/height/width layout, as in the `torch.Tensor`
consumed by `to_pil`. Indexing is total; the shape fields record the intended
extent and out-of-range reads are never performed by the embedded code. -/
structure Tensor where
  B : Nat
  C : Nat
  H : Nat
  W : Nat
  data : Nat → Nat → Nat → Nat → ℚ

/-- Model of `torch.Tensor.clone()`: in a pure embedding, cloning is the
identity on values. -/
def Tensor.clone (t : Tensor) : Tensor := t

/-- An 8-bit image in row/column/channel layout, as produced by
`PIL.Image.fromarray` on an `(H, W, C)` `uint8` array. -/
structure Image where
  H : Nat
  W : Nat
  C : Nat
  pix : Nat → Nat → Nat → Nat

/-- Model of `numpy` `astype(np.uint8)` on the values produced here: the
preceding clamp keeps every value in `[0, 255]`, where the C float-to-integer
cast is truncation toward zero, i.e. the floor on nonnegative values; the
`% 256` records the byte width. -/
def uint8OfRat (q : ℚ) : Nat := Int.toNat ⌊q⌋ % 256

/-- Translation of `Img2ImgGenerator.to_pil`, line by line:
`img = (img + 1) / 2`, `img = img.clamp(0, 1)`,
`img = img[0].permute(1, 2, 0)`, `img = (img * 255).astype(np.uint8)`,
`Image.fromarray(img)`. -/
def to_pil (t : Tensor) : Image :=
  let step1 : Nat → Nat → Nat → Nat → ℚ := fun b c h w => (t.data b c h w + 1) / 2
  let step2 : Nat → Nat → Nat → Nat → ℚ := fun b c h w => max 0 (min 1 (step1 b c h w))
  let step3 : Nat → Nat → Nat → ℚ := fun h w c => step2 0 c h w
  { H := t.H, W := t.W, C := t.C,
    pix := fun h w c => uint8OfRat (step3 h w c * 255) }

/-- Tensor whose entries all hold the value `v`. -/
def constTensor (B C H W : Nat) (v : ℚ) : Tensor :=
  { B := B, C := C, H := H, W := W, data := fun _ _ _ _ => v }

/-- Image whose pixels all hold the value `v`. -/
def uniformImage (H W C : Nat) (v : Nat) : Image :=
  { H := H, W := W, C := C, pix := fun _ _ _ => v }

/-! ### Specification-side description of the tensor-to-image transform

The spec describes the conversion as a composition of named stages:
rescale to `[0,1]`, clamp, reorder to row/column/channel, scale to `[0,255]`,
convert to integer, wrap as an image.  The integer conversion is the
truncating byte cast: the same spec fixes the all-zeros output at 127
(`255/2` truncated), so a round-to-nearest reading is excluded. -/

/-- Spec stage: rescale a `[-1,1]` value to `[0,1]` via `(x + 1) / 2`. -/
def specRescale (x : ℚ) : ℚ := (x + 1) / 2

/-- Spec stage: clamp to `[0, 1]`. -/
def specClamp01 (x : ℚ) : ℚ := max 0 (min 1 x)

/-- Spec stage: scale a `[0,1]` value to `[0,255]`. -/
def specScale255 (x : ℚ) : ℚ := x * 255

/-- Spec stage: convert to an 8-bit integer (truncating cast). -/
def specToByte (x : ℚ) : Nat := Int.toNat ⌊x⌋ % 256

/-- Specification-side tensor-to-image conversion: the composition of the
stages above, with the channel-first to row/column/channel reorder realised
by the indexing `(h, w, c) ↦ data 0 c h w`. -/
def specTensorToImage (t : Tensor) : Image :=
  { H := t.H, W := t.W, C := t.C,
    pix := fun h w c =>
      specToByte (specScale255 (specClamp01 (specRescale (t.data 0 c h w)))) }

/-! ### POSIX path helpers

Translations of the `os.path` functions used by `run`, over character lists. -/

/-- Characters after the last separator: `os.path.basename`, realised as a
left fold that restarts at every slash. -/
def basenameChars (cs : List Char) : List Char :=
  cs.foldl (fun acc c => if c = '/' then [] else acc ++ [c]) []

/-- Model of `os.path.basename` on strings. -/
def basename (p : String) : String := String.mk (basenameChars p.data)

/-- Stem part of `os.path.splitext` for inputs without a separator (the code
only applies it to a basename): find the last dot; if some character before it
is not a dot, the stem is everything before that dot, otherwise the whole
name is the stem. -/
def splitextStemChars (cs : List Char) : List Char :=
  let r := cs.reverse
  if '.' ∈ r then
    let post := r.takeWhile (fun c => c ≠ '.')
    let stem := (r.drop (post.length + 1)).reverse
    if stem.any (fun c => c ≠ '.') then stem else cs
  else cs

/-- Model of `os.path.splitext(·)[0]` on strings without a separator. -/
def splitextStem (s : String) : String := String.mk (splitextStemChars s.data)

/-- Model of POSIX `os.path.join` for two components: `b` when `b` is
absolute, plain concatenation when `a` is empty or already ends in a
separator, and otherwise concatenation with a separator inserted. -/
def joinPath (a b : String) : String :=
  if b.data.head? = some '/' then b
  else if a.data = [] ∨ a.data.getLast? = some '/' then a ++ b
  else a ++ ("/") ++ b

/-- Model of POSIX `os.path.dirname` over character lists: everything up to
the last separator, with trailing separators stripped unless the head is all
separators. -/
def dirnameChars (cs : List Char) : List Char :=
  let r := cs.reverse
  if '/' ∈ r then
    let tl := r.takeWhile (fun c => c ≠ '/')
    let head := cs.take (cs.length - tl.length)
    if head.any (fun c => c ≠ '/') then
      (head.reverse.dropWhile (fun c => c = '/')).reverse
    else head
  else []

/-- Model of `os.path.dirname` on strings. -/
def dirname (p : String) : String := String.mk (dirnameChars p.data)

/-! ### Configuration objects -/

/-- Translation of `GenerateConfig.__init__`: each field records the value of
`kwargs.get(key, default)` with the default written in the source; the Python
floats `7`, `0.0` and `0.5` are embedded as rationals. -/
structure GenerateConfig where
  sampler : String := "ddpm"
  neg : String := ""
  seed : Int := -1
  walk_seed : Bool := false
  guidance_scale : ℚ := 7
  sample_steps : Nat := 20
  guidance_rescale : ℚ := 0
  ext : String := "png"
  denoise_strength : ℚ := 1 / 2
  trigger_word : Option String := none
  deriving DecidableEq

/-- Model of `toolkit.config_modules.ModelConfig` as used by this file: only
its `is_xl` flag is read (line 107). -/
structure ModelConfig where
  is_xl : Bool
  deriving DecidableEq

/-- The process-level configuration attributes set in
`Img2ImgGenerator.__init__` that the generation loop reads. -/
structure ProcessConfig where
  output_folder : String
  copy_inputs_to : Option String := none
  device : String := "cuda"
  dtype : String := "float16"
  generate : GenerateConfig
  deriving DecidableEq

/-- Model of `toolkit.config_modules.DatasetConfig` as used by this file:
`__init__` reads `cache_latents`, `cache_latents_to_disk` and `is_reg`; the
`folder_path` carries the dataset's identity. -/
structure DatasetConfig where
  folder_path : String
  cache_latents : Bool := false
  cache_latents_to_disk : Bool := false
  is_reg : Bool := false
  deriving DecidableEq

/-! ### Dataset preprocessing in `__init__` -/

/-- The three attributes mutated by the dataset loop of
`Img2ImgGenerator.__init__` (lines 56 and 60-78). -/
structure InitState where
  is_latents_cached : Bool
  datasets : Option (List DatasetConfig)
  datasets_reg : Option (List DatasetConfig)

/-- One iteration of the dataset loop: clear `is_latents_cached` when the
dataset caches nothing, then append the dataset to `datasets_reg` when it is
a regularization set and to `datasets` otherwise (a `None` list is first
replaced by the empty list, as in the source). -/
def initStep (st : InitState) (d : DatasetConfig) : InitState :=
  let is_caching := d.cache_latents || d.cache_latents_to_disk
  let st1 := if is_caching then st else { st with is_latents_cached := false }
  if d.is_reg then
    { st1 with datasets_reg := some (st1.datasets_reg.getD [] ++ [d]) }
  else
    { st1 with datasets := some (st1.datasets.getD [] ++ [d]) }

/-- The dataset loop of `__init__`, starting from
`is_latents_cached = True`, `datasets = None`, `datasets_reg = None`. -/
def initDatasets (raw : List DatasetConfig) : InitState :=
  raw.foldl initStep
    { is_latents_cached := true, datasets := none, datasets_reg := none }

/-! ### Data-loader batches and the pipeline -/

/-- Model of `FileItemDTO` as used here: only `path` is read. -/
structure FileItemDTO where
  path : String

/-- Model of `DataLoaderBatchDTO` as used here: the list of file items, the
caption list returned by `get_caption_list()` and the image tensor.  The data
loader is constructed with batch size 1, so the loop reads index `[0]` of the
first two; the embedding uses `headD` with an inert default. -/
structure DataLoaderBatchDTO where
  file_items : List FileItemDTO
  caption_list : List String
  tensor : Tensor

/-- Model of `DataLoaderBatchDTO.get_caption_list()`. -/
def DataLoaderBatchDTO.get_caption_list (b : DataLoaderBatchDTO) : List String :=
  b.caption_list

/-- The keyword arguments of the pipeline invocation at lines 159-166.  The
configured seed is not among them. -/
structure PipeArgs where
  prompt : String
  negative_prompt : String
  image : Image
  num_inference_steps : Nat
  guidance_scale : ℚ
  strength : ℚ

/-! ### The event trace of `run` -/

/-- Externally visible events of `Img2ImgGenerator.run`, in program order:
model load, pipeline assembly (with the configured sampler name), a raised
error, a pipeline invocation, `os.makedirs`, `Image.save` and a text-file
write. -/
inductive Event where
  | load_model : Event
  | assemble_pipeline : String → Event
  | raise : String → Event
  | pipe_call : PipeArgs → Event
  | makedirs : String → Event
  | save_image : String → Image → Event
  | write_text : String → String → Event

/-- Fuel-driven worker for Python `str.replace`: scan left to right; at a
match of the (nonempty) pattern emit the replacement and resume after the
matched slice, otherwise keep one character.  The fuel, set to the input
length by the wrapper, bounds the number of steps and is never exhausted
first because every step consumes at least one character. -/
def replaceFuel (pat rep : List Char) : Nat → List Char → List Char
  | 0, cs => cs
  | _ + 1, [] => []
  | fuel + 1, c :: rest =>
    if pat.isPrefixOf (c :: rest) then
      rep ++ replaceFuel pat rep fuel (List.drop pat.length (c :: rest))
    else
      c :: replaceFuel pat rep fuel rest

/-- Python `str.replace(pat, rep)`: every non-overlapping occurrence of `pat`
replaced left to right.  The only call site passes the fixed nonempty pattern
`[trigger]`, so the empty-pattern edge case is never exercised. -/
def pyReplace (s pat rep : String) : String :=
  String.mk (replaceFuel pat.data rep.data s.data.length s.data)

/-- Caption post-processing at lines 148-150: when a trigger word is
configured, `caption.replace('[trigger]', trigger_word)`, otherwise the
caption unchanged. -/
def applyTrigger : Option String → String → String
  | none, caption => caption
  | some t, caption => pyReplace caption ("[trigger]") t

/-- Loop body of `run` (lines 130-181) for one batch, as the list of events it
emits: derive the output paths from the input file's basename, substitute the
trigger word into the caption, convert the stored tensor to an image, invoke
the pipeline, create the output directory, save the generated image, write the
caption, and, when `copy_inputs_to` is set, mirror the input image and the
caption there. -/
def processItem (cfg : ProcessConfig) (pipe : PipeArgs → Image)
    (batch : DataLoaderBatchDTO) : List Event :=
  let img_path := (batch.file_items.headD { path := "" }).path
  let img_filename_no_ext := splitextStem (basename img_path)
  let img_filename := img_filename_no_ext ++ (".") ++ cfg.generate.ext
  let output_path := joinPath cfg.output_folder img_filename
  let output_caption_path :=
    joinPath cfg.output_folder (img_filename_no_ext ++ (".txt"))
  let caption := applyTrigger cfg.generate.trigger_word
    (batch.get_caption_list.headD (""))
  let image := to_pil batch.tensor.clone
  let gen_images := pipe
    { prompt := caption
      negative_prompt := cfg.generate.neg
      image := image
      num_inference_steps := cfg.generate.sample_steps
      guidance_scale := cfg.generate.guidance_scale
      strength := cfg.generate.denoise_strength }
  [Event.pipe_call
      { prompt := caption
        negative_prompt := cfg.generate.neg
        image := image
        num_inference_steps := cfg.generate.sample_steps
        guidance_scale := cfg.generate.guidance_scale
        strength := cfg.generate.denoise_strength },
    Event.makedirs (dirname output_path),
    Event.save_image output_path gen_images,
    Event.write_text output_caption_path caption]
  ++ match cfg.copy_inputs_to with
     | some d =>
        [Event.makedirs (dirname (joinPath d img_filename)),
         Event.save_image (joinPath d img_filename) image,
         Event.write_text (joinPath d (img_filename_no_ext ++ (".txt"))) caption]
     | none => []

/-- Event trace of `Img2ImgGenerator.run`: the model is loaded, then either
the XL image-to-image pipeline is assembled with the configured sampler and
the loop processes every batch the data loader yields, or a
`NotImplementedError` is raised.  The pipeline itself is an abstract function
from invocation arguments to the first generated image. -/
def run (mc : ModelConfig) (cfg : ProcessConfig) (pipe : PipeArgs → Image)
    (batches : List DataLoaderBatchDTO) : List Event :=
  Event.load_model ::
    if mc.is_xl then
      Event.assemble_pipeline cfg.generate.sampler ::
        batches.flatMap (processItem cfg pipe)
    else
      [Event.raise ("Only XL models are supported")]

/-- Line 124: the data loader is built from `self.datasets` only, the non-reg
part of the partition computed in `__init__`; `run` then iterates its
batches.  The loader is abstract. -/
def runFromDatasets (mc : ModelConfig) (cfg : ProcessConfig)
    (pipe : PipeArgs → Image)
    (loader : Option (List DatasetConfig) → List DataLoaderBatchDTO)
    (raw : List DatasetConfig) : List Event :=
  run mc cfg pipe (loader (initDatasets raw).datasets)

/-! ### Trace projections -/

/-- Paths and contents of the text-file writes in a trace. -/
def textWrites (tr : List Event) : List (String × String) :=
  tr.filterMap fun e =>
    match e with
    | Event.write_text p c => some (p, c)
    | _ => none

/-- Paths and images of the image saves in a trace. -/
def imageWrites (tr : List Event) : List (String × Image) :=
  tr.filterMap fun e =>
    match e with
    | Event.save_image p img => some (p, img)
    | _ => none

/-- Paths of every file write (image save or text write) in a trace. -/
def writePaths (tr : List Event) : List String :=
  tr.filterMap fun e =>
    match e with
    | Event.save_image p _ => some p
    | Event.write_text p _ => some p
    | _ => none

/-- Paths of the `os.makedirs` calls in a trace. -/
def mkdirCalls (tr : List Event) : List String :=
  tr.filterMap fun e =>
    match e with
    | Event.makedirs p => some p
    | _ => none

/-- Seed scrubbing: overwrite the `seed` and `walk_seed` configuration keys
with fixed values.  Two configurations with equal scrubbings differ at most
in those two keys. -/
def scrubSeed (c : ProcessConfig) : ProcessConfig :=
  { c with generate := { c.generate with seed := 0, walk_seed := false } }

/-- Every `makedirs` event in the trace is immediately followed by an image
save: directories are created exactly at the point a file is about to be
written into them. -/
def mkdirFollowedBySave (tr : List Event) : Prop :=
  ∀ i p, tr[i]? = some (Event.makedirs p) →
    ∃ q img, tr[i + 1]? = some (Event.save_image q img)

/-! ### Concrete fixtures

Fixtures realising the end-to-end scenario of the spec: one dataset item
`data/cat.jpg` with caption `a [trigger] cat`, trigger word `orange`,
output folder `out`. -/

/-- Concrete configuration without input mirroring. -/
def cfgEx : ProcessConfig :=
  { output_folder := "out"
    generate := { trigger_word := some ("orange") } }

/-- Concrete configuration with input mirroring to `mirror`. -/
def cfgMirror : ProcessConfig :=
  { output_folder := "out"
    copy_inputs_to := some ("mirror")
    generate := { trigger_word := some ("orange") } }

/-- Concrete configuration equal to `cfgEx` except for the seed keys. -/
def cfgSeedB : ProcessConfig :=
  { output_folder := "out"
    generate := { seed := 42, walk_seed := true, trigger_word := some ("orange") } }

/-- Concrete one-item batch for `data/cat.jpg`. -/
def itemEx : DataLoaderBatchDTO :=
  { file_items := [{ path := "data/cat.jpg" }]
    caption_list := ["a [trigger] cat"]
    tensor := constTensor 1 3 2 2 0 }

/-- Concrete abstract pipeline returning a fixed image. -/
def pipeEx : PipeArgs → Image := fun _ => uniformImage 2 2 3 9

/-- Concrete XL model configuration. -/
def mcXL : ModelConfig := { is_xl := true }

/-- Concrete non-XL model configuration. -/
def mcNonXL : ModelConfig := { is_xl := false }

/-! ### Lemmas about the path helpers -/

/-- Folding the basename step over separator-free characters appends them to
the accumulator. -/
theorem basename_foldl_no_sep (rest : List Char) :
    ∀ acc : List Char, (∀ c ∈ rest, c ≠ '/') →
      rest.foldl (fun acc c => if c = '/' then [] else acc ++ [c]) acc
        = acc ++ rest := by
  induction rest with
  | nil => intro acc _; simp
  | cons c cs ih =>
    intro acc h
    have hc : c ≠ '/' := h c (List.mem_cons_self c cs)
    simp only [List.foldl_cons, if_neg hc]
    rw [ih (acc ++ [c]) (fun x hx => h x (List.mem_cons_of_mem c hx))]
    simp

/-- The basename of a path ending in a separator-free suffix is that
suffix. -/
theorem basenameChars_append (pre rest : List Char)
    (h : ∀ c ∈ rest, c ≠ '/') :
    basenameChars (pre ++ '/' :: rest) = rest := by
  unfold basenameChars
  rw [List.foldl_append]
  simp only [List.foldl_cons, if_pos rfl]
  exact basename_foldl_no_sep rest [] h

/-- `takeWhile` passes over a block of characters that all satisfy the
predicate. -/
theorem takeWhile_append_all {p : Char → Bool} (l1 l2 : List Char)
    (h : ∀ c ∈ l1, p c) :
    (l1 ++ l2).takeWhile p = l1 ++ l2.takeWhile p := by
  induction l1 with
  | nil => simp
  | cons c cs ih =>
    have hc : p c := h c (List.mem_cons_self c cs)
    simp only [List.cons_append, List.takeWhile_cons, hc, if_true]
    rw [ih (fun x hx => h x (List.mem_cons_of_mem c hx))]

/-- Splitting off the extension after the last dot: for a dot-free nonempty
stem and a dot-free extension, the stem part is the stem. -/
theorem splitextStemChars_append (s e : List Char)
    (hs : s ≠ []) (hsdot : ∀ c ∈ s, c ≠ '.') (hedot : ∀ c ∈ e, c ≠ '.') :
    splitextStemChars (s ++ '.' :: e) = s := by
  have hrev : (s ++ '.' :: e).reverse = e.reverse ++ '.' :: s.reverse := by
    simp
  have hmem : '.' ∈ e.reverse ++ '.' :: s.reverse := by simp
  have htake : (e.reverse ++ '.' :: s.reverse).takeWhile (fun c => c ≠ '.')
      = e.reverse := by
    rw [takeWhile_append_all _ _ (by
      intro c hc
      simpa using hedot c (List.mem_reverse.mp hc))]
    simp
  have hdrop : (e.reverse ++ '.' :: s.reverse).drop (e.length + 1)
      = s.reverse := by
    have hsplit : e.reverse ++ '.' :: s.reverse
        = (e.reverse ++ ['.']) ++ s.reverse := by
      simp
    have hlen : (e.reverse ++ ['.']).length = e.length + 1 := by simp
    rw [hsplit, ← hlen, List.drop_left]
  have hany : s.any (fun c => decide (c ≠ '.')) = true := by
    rcases s with _ | ⟨c, cs⟩
    · exact absurd rfl hs
    · simp only [List.any_cons, Bool.or_eq_true, decide_eq_true_eq]
      exact Or.inl (hsdot c (List.mem_cons_self c cs))
  simp only [splitextStemChars, hrev, if_pos hmem, htake, List.length_reverse,
    hdrop, List.reverse_reverse]
  rw [if_pos hany]

/-- Stem extraction on a full path `dir/stem.ext`: for a separator-free,
dot-free, nonempty stem and a separator-free, dot-free extension, the
basename-then-splitext composition recovers the stem, for every directory
prefix and every extension. -/
theorem splitextStem_basename (dir s e : String)
    (hs : s.data ≠ []) (hsok : ∀ c ∈ s.data, c ≠ '/' ∧ c ≠ '.')
    (heok : ∀ c ∈ e.data, c ≠ '/' ∧ c ≠ '.') :
    splitextStem (basename (dir ++ ("/") ++ s ++ (".") ++ e)) = s := by
  have hdata : (dir ++ ("/") ++ s ++ (".") ++ e).data
      = dir.data ++ '/' :: (s.data ++ '.' :: e.data) := by
    simp [String.data_append]
  have hb : basename (dir ++ ("/") ++ s ++ (".") ++ e)
      = String.mk (s.data ++ '.' :: e.data) := by
    unfold basename
    rw [hdata, basenameChars_append]
    intro c hc
    rcases List.mem_append.mp hc with h1 | h1
    · exact (hsok c h1).1
    · rcases List.mem_cons.mp h1 with h2 | h2
      · rw [h2]; decide
      · exact (heok c h2).1
  rw [hb]
  unfold splitextStem
  rw [splitextStemChars_append s.data e.data hs
    (fun c hc => (hsok c hc).2) (fun c hc => (heok c hc).2)]

/-! ### Lemmas about the trace of one loop iteration -/

/-- The text writes of one loop iteration: the primary caption file and,
when mirroring is on, the mirrored caption file, both holding the
post-substitution caption. -/
theorem textWrites_processItem (cfg : ProcessConfig) (pipe : PipeArgs → Image)
    (b : DataLoaderBatchDTO) :
    textWrites (processItem cfg pipe b)
      = (joinPath cfg.output_folder
          (splitextStem (basename (b.file_items.headD { path := "" }).path)
            ++ (".txt")),
         applyTrigger cfg.generate.trigger_word (b.get_caption_list.headD (""))) ::
        (match cfg.copy_inputs_to with
         | some d =>
            [(joinPath d
                (splitextStem (basename (b.file_items.headD { path := "" }).path)
                  ++ (".txt")),
              applyTrigger cfg.generate.trigger_word
                (b.get_caption_list.headD ("")))]
         | none => []) := by
  cases hc : cfg.copy_inputs_to <;>
    simp [processItem, textWrites, hc, List.filterMap_append]

/-- The image saves of one loop iteration: the generated image at the primary
output path and, when mirroring is on, the pre-generation input image at the
mirrored path. -/
theorem imageWrites_processItem (cfg : ProcessConfig) (pipe : PipeArgs → Image)
    (b : DataLoaderBatchDTO) :
    imageWrites (processItem cfg pipe b)
      = (joinPath cfg.output_folder
          (splitextStem (basename (b.file_items.headD { path := "" }).path)
            ++ (".") ++ cfg.generate.ext),
         pipe
          { prompt := applyTrigger cfg.generate.trigger_word
              (b.get_caption_list.headD (""))
            negative_prompt := cfg.generate.neg
            image := to_pil b.tensor.clone
            num_inference_steps := cfg.generate.sample_steps
            guidance_scale := cfg.generate.guidance_scale
            strength := cfg.generate.denoise_strength }) ::
        (match cfg.copy_inputs_to with
         | some d =>
            [(joinPath d
                (splitextStem (basename (b.file_items.headD { path := "" }).path)
                  ++ (".") ++ cfg.generate.ext),
              to_pil b.tensor.clone)]
         | none => []) := by
  cases hc : cfg.copy_inputs_to <;>
    simp [processItem, imageWrites, hc, List.filterMap_append]

/-- With mirroring off, one loop iteration writes exactly the primary image
and the primary caption file, both under the output folder. -/
theorem writePaths_processItem_none (cfg : ProcessConfig)
    (pipe : PipeArgs → Image) (b : DataLoaderBatchDTO)
    (hc : cfg.copy_inputs_to = none) :
    writePaths (processItem cfg pipe b)
      = [joinPath cfg.output_folder
          (splitextStem (basename (b.file_items.headD { path := "" }).path)
            ++ (".") ++ cfg.generate.ext),
         joinPath cfg.output_folder
          (splitextStem (basename (b.file_items.headD { path := "" }).path)
            ++ (".txt"))] := by
  simp [processItem, writePaths, hc, List.filterMap_append]

/-- `filterMap` distributes over `flatMap`. -/
theorem filterMap_flatMap {α β γ : Type} (l : List α) (g : α → List β)
    (f : β → Option γ) :
    (l.flatMap g).filterMap f = l.flatMap fun a => (g a).filterMap f := by
  induction l with
  | nil => simp
  | cons a as ih => simp [List.flatMap_cons, List.filterMap_append, ih]

/-! ### Lemmas about the dataset partition of `__init__` -/

/-- The caching check of the loop never touches the `datasets` attribute. -/
theorem initStep_cache_datasets (st : InitState) (cond : Prop) [Decidable cond] :
    (if cond then st else { st with is_latents_cached := false }).datasets
      = st.datasets := by
  split <;> rfl

/-- The caching check of the loop never touches the `datasets_reg`
attribute. -/
theorem initStep_cache_datasets_reg (st : InitState) (cond : Prop)
    [Decidable cond] :
    (if cond then st else { st with is_latents_cached := false }).datasets_reg
      = st.datasets_reg := by
  split <;> rfl

/-- One loop step leaves `datasets` unchanged on a regularization dataset. -/
theorem initStep_datasets_reg_case (st : InitState) (d : DatasetConfig)
    (h : d.is_reg = true) : (initStep st d).datasets = st.datasets := by
  simp [initStep, h, initStep_cache_datasets]

/-- One loop step appends a non-regularization dataset to `datasets`. -/
theorem initStep_datasets_nonreg_case (st : InitState) (d : DatasetConfig)
    (h : d.is_reg = false) :
    (initStep st d).datasets = some (st.datasets.getD [] ++ [d]) := by
  simp [initStep, h, initStep_cache_datasets]

/-- One loop step appends a regularization dataset to `datasets_reg`. -/
theorem initStep_reg_append (st : InitState) (d : DatasetConfig)
    (h : d.is_reg = true) :
    (initStep st d).datasets_reg = some (st.datasets_reg.getD [] ++ [d]) := by
  simp [initStep, h, initStep_cache_datasets_reg]

/-- One loop step leaves `datasets_reg` unchanged on a non-regularization
dataset. -/
theorem initStep_reg_skip (st : InitState) (d : DatasetConfig)
    (h : d.is_reg = false) : (initStep st d).datasets_reg = st.datasets_reg := by
  simp [initStep, h, initStep_cache_datasets_reg]

/-- Running the dataset loop from any state: the `datasets` attribute ends
as the state's value when no non-regularization dataset occurs, and otherwise
as the accumulated list extended by exactly the non-regularization
datasets, in order. -/
theorem foldl_initStep_datasets (raw : List DatasetConfig) :
    ∀ st : InitState,
      (List.foldl initStep st raw).datasets
        = if raw.filter (fun d => !d.is_reg) = [] then st.datasets
          else some (st.datasets.getD [] ++ raw.filter (fun d => !d.is_reg)) := by
  induction raw with
  | nil => intro st; simp
  | cons d rest ih =>
    intro st
    rw [List.foldl_cons]
    cases hreg : d.is_reg with
    | true =>
      rw [ih (initStep st d), initStep_datasets_reg_case st d hreg]
      simp [List.filter_cons, hreg]
    | false =>
      rw [ih (initStep st d), initStep_datasets_nonreg_case st d hreg]
      simp only [List.filter_cons, hreg, Bool.not_false, if_pos]
      split
      · next hrest =>
        simp [hrest]
      · next hrest =>
        simp [List.append_assoc]

/-- Running the dataset loop from any state: the `datasets_reg` attribute
accumulates exactly the regularization datasets, in order. -/
theorem foldl_initStep_datasets_reg (raw : List DatasetConfig) :
    ∀ st : InitState,
      (List.foldl initStep st raw).datasets_reg
        = if raw.filter (fun d => d.is_reg) = [] then st.datasets_reg
          else some (st.datasets_reg.getD [] ++ raw.filter (fun d => d.is_reg)) := by
  induction raw with
  | nil => intro st; simp
  | cons d rest ih =>
    intro st
    rw [List.foldl_cons]
    cases hreg : d.is_reg with
    | false =>
      rw [ih (initStep st d), initStep_reg_skip st d hreg]
      simp [List.filter_cons, hreg]
    | true =>
      rw [ih (initStep st d), initStep_reg_append st d hreg]
      simp only [List.filter_cons, hreg, if_pos]
      split
      · next hrest =>
        simp [hrest]
      · next hrest =>
        simp [List.append_assoc]

/-- The `datasets` attribute after `__init__`: `None` when every dataset is a
regularization set, and otherwise exactly the non-regularization datasets. -/
theorem initDatasets_datasets (raw : List DatasetConfig) :
    (initDatasets raw).datasets
      = if raw.filter (fun d => !d.is_reg) = [] then none
        else some (raw.filter (fun d => !d.is_reg)) := by
  unfold initDatasets
  rw [foldl_initStep_datasets]
  split <;> simp

/-- The `datasets_reg` attribute after `__init__`: `None` when no dataset is
a regularization set, and otherwise exactly the regularization datasets. -/
theorem initDatasets_datasets_reg (raw : List DatasetConfig) :
    (initDatasets raw).datasets_reg
      = if raw.filter (fun d => d.is_reg) = [] then none
        else some (raw.filter (fun d => d.is_reg)) := by
  unfold initDatasets
  rw [foldl_initStep_datasets_reg]
  split <;> simp

/-! ### Lemmas about directory-creation events -/

/-- The empty trace satisfies the mkdir-then-save property. -/
theorem mfs_nil : mkdirFollowedBySave [] := by
  intro i p h
  simp at h

/-- Consing a non-mkdir event preserves the mkdir-then-save property. -/
theorem mfs_cons (x : Event) (l : List Event)
    (hx : ∀ p, x ≠ Event.makedirs p) (h : mkdirFollowedBySave l) :
    mkdirFollowedBySave (x :: l) := by
  intro i p hi
  match i with
  | 0 =>
    rw [List.getElem?_cons_zero] at hi
    exact absurd (Option.some.inj hi) (hx p)
  | n + 1 =>
    rw [List.getElem?_cons_succ] at hi
    obtain ⟨q, img, hq⟩ := h n p hi
    exact ⟨q, img, by rw [List.getElem?_cons_succ]; exact hq⟩

/-- Appending traces preserves the mkdir-then-save property provided the
first trace does not end in a mkdir event. -/
theorem mfs_append (l1 l2 : List Event)
    (h1 : mkdirFollowedBySave l1) (h2 : mkdirFollowedBySave l2)
    (hlast : ∀ p, l1.getLast? ≠ some (Event.makedirs p)) :
    mkdirFollowedBySave (l1 ++ l2) := by
  intro i p hi
  by_cases hi1 : i < l1.length
  · rw [List.getElem?_append_left hi1] at hi
    by_cases hi2 : i + 1 < l1.length
    · obtain ⟨q, img, hq⟩ := h1 i p hi
      exact ⟨q, img, by rw [List.getElem?_append_left hi2]; exact hq⟩
    · have hieq : i = l1.length - 1 := by omega
      have : l1.getLast? = some (Event.makedirs p) := by
        rw [List.getLast?_eq_getElem?, ← hieq]
        exact hi
      exact absurd this (hlast p)
  · push_neg at hi1
    rw [List.getElem?_append_right hi1] at hi
    obtain ⟨q, img, hq⟩ := h2 (i - l1.length) p hi
    refine ⟨q, img, ?_⟩
    rw [List.getElem?_append_right (by omega)]
    have harith : i + 1 - l1.length = i - l1.length + 1 := by omega
    rw [harith]
    exact hq

/-- One loop iteration ends with a caption write, never with a mkdir. -/
theorem processItem_getLast_write (cfg : ProcessConfig)
    (pipe : PipeArgs → Image) (b : DataLoaderBatchDTO) :
    ∃ p c, (processItem cfg pipe b).getLast? = some (Event.write_text p c) := by
  cases hc : cfg.copy_inputs_to with
  | none =>
    simp only [processItem, hc, List.append_nil]
    exact ⟨_, _, rfl⟩
  | some d =>
    simp only [processItem, hc]
    exact ⟨_, _, rfl⟩

/-- One loop iteration satisfies the mkdir-then-save property: each of its
mkdir events is immediately followed by an image save. -/
theorem mfs_processItem (cfg : ProcessConfig) (pipe : PipeArgs → Image)
    (b : DataLoaderBatchDTO) :
    mkdirFollowedBySave (processItem cfg pipe b) := by
  cases hc : cfg.copy_inputs_to with
  | none =>
    intro i p hi
    simp only [processItem, hc, List.append_nil] at hi ⊢
    match i with
    | 0 => simp at hi
    | 1 => exact ⟨_, _, rfl⟩
    | 2 => simp at hi
    | 3 => simp at hi
    | n + 4 => simp at hi
  | some d =>
    intro i p hi
    simp only [processItem, hc] at hi ⊢
    match i with
    | 0 => simp at hi
    | 1 => exact ⟨_, _, rfl⟩
    | 2 => simp at hi
    | 3 => simp at hi
    | 4 => exact ⟨_, _, rfl⟩
    | 5 => simp at hi
    | 6 => simp at hi
    | n + 7 => simp at hi

/-- The whole loop satisfies the mkdir-then-save property. -/
theorem mfs_flatMap (cfg : ProcessConfig) (pipe : PipeArgs → Image)
    (batches : List DataLoaderBatchDTO) :
    mkdirFollowedBySave (batches.flatMap (processItem cfg pipe)) := by
  induction batches with
  | nil => exact mfs_nil
  | cons b bs ih =>
    rw [List.flatMap_cons]
    refine mfs_append _ _ (mfs_processItem cfg pipe b) ih ?_
    intro p hp
    obtain ⟨q, c, hq⟩ := processItem_getLast_write cfg pipe b
    rw [hq] at hp
    exact Event.noConfusion (Option.some.inj hp)

/-! ### The claims -/

/-- C1: for every batch item, every caption content written by the loop body
(the output caption file, and the mirrored caption file when mirroring is
configured) is the item's caption with every occurrence of the literal
placeholder `[trigger]` replaced by the configured trigger word when one is
configured, and the item's caption verbatim when none is configured. -/
theorem claim1_trigger_word_substitution :
    (∀ (cfg : ProcessConfig) (pipe : PipeArgs → Image) (b : DataLoaderBatchDTO),
      (textWrites (processItem cfg pipe b)).map Prod.snd
        = match cfg.copy_inputs_to with
          | some _ =>
            [applyTrigger cfg.generate.trigger_word (b.get_caption_list.headD ("")),
             applyTrigger cfg.generate.trigger_word (b.get_caption_list.headD (""))]
          | none =>
            [applyTrigger cfg.generate.trigger_word
              (b.get_caption_list.headD (""))])
    ∧ (∀ cap, applyTrigger none cap = cap)
    ∧ (∀ t cap, applyTrigger (some t) cap = pyReplace cap ("[trigger]") t) := by
  refine ⟨?_, fun cap => rfl, fun t cap => rfl⟩
  intro cfg pipe b
  rw [textWrites_processItem]
  cases hc : cfg.copy_inputs_to <;> simp [hc]

/-- C2: for every input file path of the form `dir/stem.extension` with a
nonempty, separator- and dot-free stem and a separator- and dot-free
extension, the loop body saves the generated image to
`output_folder/stem.<configured ext>` and the caption to
`output_folder/stem.txt`: the output stem equals the input stem regardless of
the input extension, and the image extension is the configured one. -/
theorem claim2_output_filenames (cfg : ProcessConfig) (pipe : PipeArgs → Image)
    (b : DataLoaderBatchDTO) (dir s e : String)
    (hpath : (b.file_items.headD { path := "" }).path
      = dir ++ ("/") ++ s ++ (".") ++ e)
    (hs : s.data ≠ []) (hsok : ∀ c ∈ s.data, c ≠ '/' ∧ c ≠ '.')
    (heok : ∀ c ∈ e.data, c ≠ '/' ∧ c ≠ '.') :
    ((imageWrites (processItem cfg pipe b)).map Prod.fst).head?
        = some (joinPath cfg.output_folder (s ++ (".") ++ cfg.generate.ext))
    ∧ ((textWrites (processItem cfg pipe b)).map Prod.fst).head?
        = some (joinPath cfg.output_folder (s ++ (".txt"))) := by
  constructor
  · rw [imageWrites_processItem]
    simp only [List.map_cons, List.head?_cons]
    rw [hpath, splitextStem_basename dir s e hs hsok heok]
  · rw [textWrites_processItem]
    simp only [List.map_cons, List.head?_cons]
    rw [hpath, splitextStem_basename dir s e hs hsok heok]

/-- Witness for C2 at the concrete input `data/cat.jpg` with the default
extension `png`: the image goes to `out/cat.png` and the caption to
`out/cat.txt`. -/
theorem claim2_output_filenames_witness :
    ((imageWrites (processItem cfgEx pipeEx itemEx)).map Prod.fst).head?
        = some (joinPath cfgEx.output_folder (("cat") ++ (".")
            ++ cfgEx.generate.ext))
    ∧ ((textWrites (processItem cfgEx pipeEx itemEx)).map Prod.fst).head?
        = some (joinPath cfgEx.output_folder (("cat") ++ (".txt"))) :=
  claim2_output_filenames cfgEx pipeEx itemEx ("data") ("cat") ("jpg")
    (by decide) (by decide) (by decide) (by decide)

/-- C3: the tensor-to-image conversion equals the composition of the
spec-described stages: rescale to `[0,1]` via `(x+1)/2`, clamp to `[0,1]`,
reorder to row/column/channel layout, scale to `[0,255]`, convert to an
8-bit integer, and wrap as an image object.  The statement holds for every
tensor, in particular those with values in `[-1, 1]`. -/
theorem claim3_to_pil_is_spec_composition (t : Tensor) :
    to_pil t = specTensorToImage t := rfl

/-- C4: the tensor-to-image conversion is a deterministic pure function
(equal inputs give equal images), and on the constant tensors it hits the
anchor values: all zeros gives uniform mid-gray 127, all `-1` gives uniform
black 0, all `1` gives uniform white 255. -/
theorem claim4_to_pil_deterministic_and_extremes :
    (∀ t1 t2 : Tensor, t1 = t2 → to_pil t1 = to_pil t2)
    ∧ (∀ B C H W, to_pil (constTensor B C H W 0) = uniformImage H W C 127)
    ∧ (∀ B C H W, to_pil (constTensor B C H W (-1)) = uniformImage H W C 0)
    ∧ (∀ B C H W, to_pil (constTensor B C H W 1) = uniformImage H W C 255) := by
  refine ⟨fun t1 t2 h => congrArg to_pil h, ?_, ?_, ?_⟩ <;>
  · intro B C H W
    simp only [to_pil, constTensor, uniformImage, uint8OfRat]
    norm_num
    try rfl

/-- Witness for C4: determinism applied at a concrete pair of equal constant
tensors. -/
theorem claim4_witness :
    to_pil (constTensor 1 3 2 2 (0 + 0)) = to_pil (constTensor 1 3 2 2 0) :=
  claim4_to_pil_deterministic_and_extremes.1 _ _ (by norm_num)

/-- C5: with a non-XL model configuration, the run loads the model and then
raises `NotImplementedError` at pipeline-assembly time: the trace is exactly
the model load followed by the raise, so no pipeline invocation happens and
no image or caption file and no directory is ever written or created. -/
theorem claim5_non_xl_not_implemented (mc : ModelConfig) (cfg : ProcessConfig)
    (pipe : PipeArgs → Image) (batches : List DataLoaderBatchDTO)
    (h : mc.is_xl = false) :
    run mc cfg pipe batches
      = [Event.load_model, Event.raise ("Only XL models are supported")]
    ∧ writePaths (run mc cfg pipe batches) = []
    ∧ mkdirCalls (run mc cfg pipe batches) = []
    ∧ ∀ a, Event.pipe_call a ∉ run mc cfg pipe batches := by
  have hrun : run mc cfg pipe batches
      = [Event.load_model, Event.raise ("Only XL models are supported")] := by
    simp [run, h]
  refine ⟨hrun, ?_, ?_, ?_⟩ <;> rw [hrun]
  · rfl
  · rfl
  · intro a
    simp [writePaths]

/-- Witness for C5 at a concrete non-XL model configuration. -/
theorem claim5_witness :
    run mcNonXL cfgEx pipeEx [itemEx]
      = [Event.load_model, Event.raise ("Only XL models are supported")] :=
  (claim5_non_xl_not_implemented mcNonXL cfgEx pipeEx [itemEx] rfl).1

/-- Written file paths of a full XL run: the concatenation of the written
paths of every loop iteration. -/
theorem writePaths_run (mc : ModelConfig) (cfg : ProcessConfig)
    (pipe : PipeArgs → Image) (batches : List DataLoaderBatchDTO)
    (hxl : mc.is_xl = true) :
    writePaths (run mc cfg pipe batches)
      = batches.flatMap fun b => writePaths (processItem cfg pipe b) := by
  simp only [run, hxl, if_true]
  simp [writePaths, filterMap_flatMap]

/-- C6: when `copy_inputs_to` is unset, every file path written during the
run (image saves and caption writes alike, on every iteration) is of the
form `joinPath output_folder name`: nothing is written anywhere else. -/
theorem claim6_no_writes_outside_output_folder (mc : ModelConfig)
    (cfg : ProcessConfig) (pipe : PipeArgs → Image)
    (batches : List DataLoaderBatchDTO) (hcopy : cfg.copy_inputs_to = none)
    (p : String) (hp : p ∈ writePaths (run mc cfg pipe batches)) :
    ∃ s, p = joinPath cfg.output_folder s := by
  cases hxl : mc.is_xl with
  | false =>
    simp [run, hxl, writePaths] at hp
  | true =>
    rw [writePaths_run mc cfg pipe batches hxl] at hp
    obtain ⟨b, hb, hmem⟩ := List.mem_flatMap.mp hp
    rw [writePaths_processItem_none cfg pipe b hcopy] at hmem
    simp only [List.mem_cons, List.mem_singleton, List.not_mem_nil,
      or_false] at hmem
    rcases hmem with h | h <;> exact ⟨_, h⟩

/-- Witness for C6 at the concrete run: the image path `out/cat.png` is under
the output folder. -/
theorem claim6_witness : ∃ s, ("out/cat.png") = joinPath cfgEx.output_folder s :=
  claim6_no_writes_outside_output_folder mcXL cfgEx pipeEx [itemEx] rfl
    ("out/cat.png") (by decide)

/-- C7: when `copy_inputs_to` is set to `d`, the loop body writes exactly two
caption files, one under the output folder and one under `d`, both with the
identical post-substitution caption content, and the second image saved in
the iteration is the mirrored one under `d` holding the pre-generation input
image `to_pil batch.tensor`, not the pipeline's output. -/
theorem claim7_mirrored_outputs (cfg : ProcessConfig) (pipe : PipeArgs → Image)
    (b : DataLoaderBatchDTO) (d : String)
    (hcopy : cfg.copy_inputs_to = some d) :
    textWrites (processItem cfg pipe b)
      = [(joinPath cfg.output_folder
            (splitextStem (basename (b.file_items.headD { path := "" }).path)
              ++ (".txt")),
          applyTrigger cfg.generate.trigger_word
            (b.get_caption_list.headD (""))),
         (joinPath d
            (splitextStem (basename (b.file_items.headD { path := "" }).path)
              ++ (".txt")),
          applyTrigger cfg.generate.trigger_word
            (b.get_caption_list.headD ("")))]
    ∧ (imageWrites (processItem cfg pipe b))[1]?
      = some (joinPath d
            (splitextStem (basename (b.file_items.headD { path := "" }).path)
              ++ (".") ++ cfg.generate.ext),
          to_pil b.tensor) := by
  constructor
  · rw [textWrites_processItem, hcopy]
  · rw [imageWrites_processItem, hcopy]
    rfl

/-- Witness for C7 at the concrete mirrored run: both caption writes carry
the same substituted caption. -/
theorem claim7_witness :
    (textWrites (processItem cfgMirror pipeEx itemEx)).map Prod.snd
      = [("a orange cat"), ("a orange cat")] := by
  have h := claim7_mirrored_outputs cfgMirror pipeEx itemEx ("mirror") rfl
  rw [h.1]
  decide

/-- Scrubbing the seed keys does not change the run's trace: `run` never
reads `seed` or `walk_seed`. -/
theorem run_scrubSeed (mc : ModelConfig) (cfg : ProcessConfig)
    (pipe : PipeArgs → Image) (batches : List DataLoaderBatchDTO) :
    run mc (scrubSeed cfg) pipe batches = run mc cfg pipe batches := rfl

/-- C8: the values of the `seed` and `walk_seed` configuration keys never
influence the run: two runs whose configurations agree after scrubbing those
two keys produce identical traces, hence identical pipeline-invocation
arguments, identical output file paths and identical caption contents. -/
theorem claim8_seed_never_used (mc : ModelConfig) (c1 c2 : ProcessConfig)
    (pipe : PipeArgs → Image) (batches : List DataLoaderBatchDTO)
    (h : scrubSeed c1 = scrubSeed c2) :
    run mc c1 pipe batches = run mc c2 pipe batches := by
  rw [← run_scrubSeed mc c1 pipe batches, h, run_scrubSeed]

/-- Witness for C8 at two concrete configurations differing exactly in
`seed` (`-1` vs `42`) and `walk_seed` (`false` vs `true`). -/
theorem claim8_witness :
    run mcXL cfgEx pipeEx [itemEx] = run mcXL cfgSeedB pipeEx [itemEx] :=
  claim8_seed_never_used mcXL cfgEx cfgSeedB pipeEx [itemEx] rfl

/-- C9: `__init__` partitions the datasets by `is_reg`: after the loop,
`datasets` holds exactly the non-regularization datasets and `datasets_reg`
exactly the regularization ones, and since the data loader is built from
`datasets` only, the run's trace is unchanged when the regularization
datasets are removed: they never produce output files. -/
theorem claim9_reg_datasets_excluded :
    (∀ raw : List DatasetConfig,
      (initDatasets raw).datasets.getD [] = raw.filter (fun d => !d.is_reg))
    ∧ (∀ raw : List DatasetConfig,
      (initDatasets raw).datasets_reg.getD [] = raw.filter (fun d => d.is_reg))
    ∧ (∀ (mc : ModelConfig) (cfg : ProcessConfig) (pipe : PipeArgs → Image)
        (loader : Option (List DatasetConfig) → List DataLoaderBatchDTO)
        (raw : List DatasetConfig),
        runFromDatasets mc cfg pipe loader raw
          = runFromDatasets mc cfg pipe loader
              (raw.filter (fun d => !d.is_reg))) := by
  refine ⟨?_, ?_, ?_⟩
  · intro raw
    rw [initDatasets_datasets]
    split
    · next h => simp [h]
    · rfl
  · intro raw
    rw [initDatasets_datasets_reg]
    split
    · next h => simp [h]
    · rfl
  · intro mc cfg pipe loader raw
    unfold runFromDatasets
    have hsame : (initDatasets raw).datasets
        = (initDatasets (raw.filter (fun d => !d.is_reg))).datasets := by
      rw [initDatasets_datasets, initDatasets_datasets, List.filter_filter]
      simp
    rw [hsame]

/-- C10: if the data loader yields zero batches the run writes no files and
creates no directories, and in every run each directory creation happens
immediately before the image save into it, inside the loop body, never up
front. -/
theorem claim10_lazy_side_effects :
    (∀ (mc : ModelConfig) (cfg : ProcessConfig) (pipe : PipeArgs → Image),
      writePaths (run mc cfg pipe []) = []
        ∧ mkdirCalls (run mc cfg pipe []) = [])
    ∧ (∀ (mc : ModelConfig) (cfg : ProcessConfig) (pipe : PipeArgs → Image)
        (batches : List DataLoaderBatchDTO),
        mkdirFollowedBySave (run mc cfg pipe batches)) := by
  constructor
  · intro mc cfg pipe
    cases hxl : mc.is_xl <;>
      exact ⟨by simp [run, hxl, writePaths], by simp [run, hxl, mkdirCalls]⟩
  · intro mc cfg pipe batches
    cases hxl : mc.is_xl with
    | false =>
      intro i p hi
      simp only [run, hxl] at hi
      match i with
      | 0 => simp at hi
      | 1 => simp at hi
      | n + 2 => simp at hi
    | true =>
      have hrun : run mc cfg pipe batches
          = Event.load_model :: Event.assemble_pipeline cfg.generate.sampler ::
              batches.flatMap (processItem cfg pipe) := by
        simp [run, hxl]
      rw [hrun]
      exact mfs_cons _ _ (fun p h => Event.noConfusion h)
        (mfs_cons _ _ (fun p h => Event.noConfusion h)
          (mfs_flatMap cfg pipe batches))

/-- Witness for C10: in the concrete run, the mkdir event at index 3 is
immediately followed by an image save. -/
theorem claim10_witness :
    ∃ q img, (run mcXL cfgEx pipeEx [itemEx])[3 + 1]?
      = some (Event.save_image q img) :=
  claim10_lazy_side_effects.2 mcXL cfgEx pipeEx [itemEx] 3 ("out") rfl

end Img2Img
